import Mathlib

/-!
Shallow embedding of the QR attendance core of the repository
(`lib/qr-utils.ts` = src/unnamed/part_006, `lib/data.ts` = src/unnamed/part_007,
and the QR-generation API route).

Modelling conventions, stated once:

* Timestamps are `Int` milliseconds since the Unix epoch.  All `Date`
  operations are interpreted in a fixed (UTC) timezone:
  `toDateString` equality becomes equality of `dateOf` (the civil day
  number), `toLocaleDateString(weekday)` becomes `weekdayName`, and
  `setHours(h, m, 0, 0)` becomes `startOfDay now + (h*3600 + m*60)*1000`
  (JavaScript rolls hour overflow into the following days, which the
  same formula produces).

* The persistent store (`localStorage` behind `storage.get`/`storage.set`)
  is the `AppState` record.  Every `dataService` read deserializes a fresh
  copy of the stored blob, so a field assignment or `push` performed on a
  value returned by a read — and never written back through
  `storage.set` — does not change the store.  This matters in two places
  of the source, both explicitly annotated there with
  "Note: In a real app, you'd update this in the database":
  `deactivateQRSession` (sets `isActive = false` on the copy) and the
  `attendanceMarked.push` on the accept path of `markAttendanceWithQR`.
  Both are therefore modelled as leaving the session store unchanged.

* A QR token string is modelled by its parsed JSON tree (`Json`).
  `JSON.stringify`/`JSON.parse` round-tripping of a tree is abstracted as
  the identity; a string that fails `JSON.parse` (message
  'Invalid QR code data') is identified with a tree failing the field
  checks (message 'Invalid QR code format') — both are the malformed-token
  outcome and no claim distinguishes them.  Numbers are restricted to
  integers (every number in the codec is a millisecond timestamp).
  The format check itself (`tokenFormatRejected`) is modelled exactly as
  the source's truthiness-only test; the typed pipeline (`decodeToken`)
  conservatively stops on a token whose four fields are present and
  JS-truthy but of an unexpected JSON type, a shape no token produced by
  the system has and no claim theorem relies on.

* Within one call, the several `new Date()` evaluations
  (`today`, `now`, `checkedInAt`) are the same instant `now`
  (single-call clock abstraction).

* `uuidv4()` and `Date.now().toString()` id generation are modelled by an
  explicit `uuid : String` parameter and by `toString now` respectively.

* Presentation-only record fields never read by the verified operations
  (`subject`, `instructor`, `room`, `semester`, `isActive`, `createdAt`,
  `updatedAt`, `qrCode`, `qrCodeExpiry` on `Class`; `location`, `notes`
  on `AttendanceRecord`) are omitted from the structures.
-/

/-- One civil day in milliseconds. -/
def msPerDay : Int := 86400000

/-- Civil (UTC) day number of a timestamp; `toDateString` equality of two
`Date`s is modelled as equality of their `dateOf`. -/
def dateOf (t : Int) : Int := t.fdiv msPerDay

/-- Midnight (UTC) of the day containing `t`; models `setHours(_,_,0,0)`
applied to `new Date(t)` before the hour/minute offsets are added. -/
def startOfDay (t : Int) : Int := dateOf t * msPerDay

/-- English weekday name of the day containing `t`
(`toLocaleDateString('en-US', \x7b weekday: 'long' \x7d)`).
Day 0 (1970-01-01) was a Thursday. -/
def weekdayName (t : Int) : String :=
  ["Sunday", "Monday", "Tuesday", "Wednesday", "Thursday", "Friday",
   "Saturday"].getD ((dateOf t + 4).emod 7).toNat ""

/-- Parsed JSON tree standing in for a JSON-encoded string (see header). -/
inductive Json where
  | null : Json
  | bool (b : Bool) : Json
  | num (n : Int) : Json
  | str (s : String) : Json
  | arr (elems : List Json) : Json
  | obj (fields : List (String × Json)) : Json

/-- First binding of a key in a JSON object's field list
(JavaScript property access on the parsed object). -/
def lookupField : List (String × Json) → String → Option Json
  | [], _ => none
  | (k, v) :: rest, key => if k == key then some v else lookupField rest key

/-- Property access `j.key`: `none` models `undefined` (missing field or
access on a non-object value). -/
def getField (j : Json) (key : String) : Option Json :=
  match j with
  | .obj fields => lookupField fields key
  | _ => none

/-- One `schedule` entry of a class: `\x7b day, startTime, endTime \x7d`. -/
structure ScheduleEntry where
  day : String
  startTime : String
  endTime : String
deriving DecidableEq

/-- The `Class` interface (source type name `Class`), restricted to the
fields the verified operations read. -/
structure ClassInfo where
  id : String
  name : String
  schedule : List ScheduleEntry
  enrolledStudents : List String
deriving DecidableEq

/-- The `AttendanceRecord` interface, restricted to the fields the
verified operations read or write. -/
structure AttendanceRecord where
  id : String
  classId : String
  studentId : String
  date : Int
  status : String
  checkedInAt : Int
  qrCodeUsed : String
deriving DecidableEq

/-- The `QRCodeSession` interface. -/
structure QRCodeSession where
  id : String
  classId : String
  generatedAt : Int
  expiresAt : Int
  isActive : Bool
  attendanceMarked : List String
deriving DecidableEq

/-- Contents of the persistent store (the `localStorage` blobs behind
`STORAGE_KEYS.CLASSES`, `.ATTENDANCE` and `.QR_SESSIONS`). -/
structure AppState where
  classes : List ClassInfo
  records : List AttendanceRecord
  sessions : List QRCodeSession
deriving DecidableEq

/-- Model of `dataService.getClassById`. -/
def getClassById (st : AppState) (id : String) : Option ClassInfo :=
  st.classes.find? (fun cls => cls.id == id)

/-- Model of `dataService.getAttendanceRecords` (the stored ledger). -/
def getAttendanceRecords (st : AppState) : List AttendanceRecord :=
  st.records

/-- Model of `dataService.getAttendanceByDate`: records whose `toDateString`
matches the target date's. -/
def getAttendanceByDate (st : AppState) (date : Int) : List AttendanceRecord :=
  (getAttendanceRecords st).filter (fun record => dateOf record.date == dateOf date)

/-- Model of `dataService.createAttendanceRecord`: appends the record under the id
`Date.now().toString()` and persists the ledger. -/
def createAttendanceRecord (st : AppState) (now : Int) (classId studentId : String)
    (date : Int) (status : String) (checkedInAt : Int) (qrCodeUsed : String) :
    AttendanceRecord × AppState :=
  let newRecord : AttendanceRecord :=
    ⟨toString now, classId, studentId, date, status, checkedInAt, qrCodeUsed⟩
  (newRecord, { st with records := st.records ++ [newRecord] })

/-- Model of `dataService.getActiveQRSession`: its `find?` returns the FIRST stored
session of the class that is active and unexpired (`expiresAt > now`),
in insertion order. -/
def getActiveQRSession (st : AppState) (now : Int) (classId : String) :
    Option QRCodeSession :=
  st.sessions.find?
    (fun session =>
      session.classId == classId && session.isActive && decide (now < session.expiresAt))

/-- Model of `dataService.createQRSession`: appends the session under the id
`Date.now().toString()` and persists the session store. -/
def createQRSession (st : AppState) (now : Int) (classId : String)
    (generatedAt expiresAt : Int) (isActive : Bool) (attendanceMarked : List String) :
    QRCodeSession × AppState :=
  let newSession : QRCodeSession :=
    ⟨toString now, classId, generatedAt, expiresAt, isActive, attendanceMarked⟩
  (newSession, { st with sessions := st.sessions ++ [newSession] })

/-- The `QRCodeData` token payload: the four fields serialized into the
QR string. -/
structure QRCodeData where
  classId : String
  sessionId : String
  timestamp : Int
  expiresAt : Int
deriving DecidableEq

/-- Encoding (`JSON.stringify`) of a `QRCodeData` value, as its parsed tree
(field order as written in `generateClassQR`). -/
def encodeQRCodeData (d : QRCodeData) : Json :=
  .obj [("classId", .str d.classId), ("sessionId", .str d.sessionId),
        ("timestamp", .num d.timestamp), ("expiresAt", .num d.expiresAt)]

/-- JS truthiness of a property-access result: `undefined` (missing),
`null`, `false`, `0` and the empty string are falsy; every other value
— numbers, nonempty strings, arrays, objects — is truthy. -/
def jsTruthy : Option Json → Bool
  | none => false
  | some .null => false
  | some (.bool b) => b
  | some (.num n) => !(n == 0)
  | some (.str s) => !(s == "")
  | some (.arr _) => true
  | some (.obj _) => true

/-- The format check at the top of `validateQRCode`, exactly as written
in the source: `!qrData.classId || !qrData.sessionId ||
!qrData.timestamp || !qrData.expiresAt` — JS truthiness only, with no
type check.  `true` is the 'Invalid QR code format' outcome; a
present-but-wrong-typed truthy field (say a numeric `classId`) PASSES
this check and flows on to the later steps. -/
def tokenFormatRejected (j : Json) : Bool :=
  !jsTruthy (getField j "classId") || !jsTruthy (getField j "sessionId") ||
  !jsTruthy (getField j "timestamp") || !jsTruthy (getField j "expiresAt")

/-- Typed extraction of the token payload, used by the modelled pipeline:
the four properties read off the parsed object, with the source's
truthiness check (`tokenFormatRejected`) applied to them.  On a token
whose four fields have the types every token produced by `encode` has
(string ids, numeric timestamps), this agrees exactly with the source.
A token with a present-but-wrong-typed truthy field is conservatively
mapped to `none` here although the source's format check passes it (see
`tokenFormatRejected`); no claim theorem relies on the pipeline's
behavior on such tokens. -/
def decodeToken (j : Json) : Option QRCodeData :=
  match getField j "classId", getField j "sessionId",
        getField j "timestamp", getField j "expiresAt" with
  | some (.str classId), some (.str sessionId), some (.num timestamp),
    some (.num expiresAt) =>
    if classId == "" || sessionId == "" || timestamp == 0 || expiresAt == 0 then
      none
    else
      some ⟨classId, sessionId, timestamp, expiresAt⟩
  | _, _, _, _ => none

/-- Result record `QRGenerationResult`; `qrData` is the payload rendered into the QR
image (`qrCodeDataURL` encodes `JSON.stringify(qrData)`). -/
structure QRGenerationResult where
  success : Bool
  qrData : Option QRCodeData
  sessionId : Option String
  expiresAt : Option Int
  error : Option String
deriving DecidableEq

/-- Result record `QRValidationResult`. -/
structure QRValidationResult where
  success : Bool
  classId : Option String
  sessionId : Option String
  className : Option String
  error : Option String
deriving DecidableEq

/-- Result record of `markAttendanceWithQR`. -/
structure MarkResult where
  success : Bool
  message : String
  attendanceId : Option String
deriving DecidableEq

/-- Model of `QRService.generateClassQR classId durationMinutes`: looks up the
class ('Class not found' on failure), builds the token payload with
`expiresAt = now + durationMinutes * 60000`, and stores a session
(`generatedAt = now`, same `expiresAt`, `isActive = true`, empty
`attendanceMarked`).  `uuid` is the `uuidv4()` value used as the token's
`sessionId`; the stored session's id is `Date.now().toString()` from
`createQRSession`.  No check on `durationMinutes` is performed. -/
def generateClassQR (st : AppState) (now : Int) (uuid : String)
    (classId : String) (durationMinutes : Int) : QRGenerationResult × AppState :=
  match getClassById st classId with
  | none => (⟨false, none, none, none, some "Class not found"⟩, st)
  | some _ =>
    let expiresAt := now + durationMinutes * 60000
    let qrData : QRCodeData := ⟨classId, uuid, now, expiresAt⟩
    let created := createQRSession st now classId now expiresAt true []
    (⟨true, some qrData, some uuid, some expiresAt, none⟩, created.2)

/-- Model of `QRService.validateQRCode`, step by step as in the source: field
checks (via `decodeToken`), payload expiry (`now > expiresAt`), class
existence, then active-session existence for the payload's class. -/
def validateQRCode (st : AppState) (now : Int) (tok : Json) : QRValidationResult :=
  match decodeToken tok with
  | none => ⟨false, none, none, none, some "Invalid QR code format"⟩
  | some qrData =>
    if now > qrData.expiresAt then
      ⟨false, none, none, none, some "QR code has expired"⟩
    else
      match getClassById st qrData.classId with
      | none => ⟨false, none, none, none, some "Class not found"⟩
      | some classData =>
        match getActiveQRSession st now qrData.classId with
        | none => ⟨false, none, none, none, some "QR code session is not active"⟩
        | some _ =>
          ⟨true, some qrData.classId, some qrData.sessionId, some classData.name, none⟩

/-- Digit-string value, `none` on any non-digit character. -/
def digitsValue : List Char → Option Nat
  | [] => some 0
  | c :: cs =>
    if c.isDigit then
      (digitsValue cs).map (fun rest => (c.toNat - 48) * 10 ^ cs.length + rest)
    else
      none

/-- JavaScript `Number(component)` applied to one piece of
`startTime.split(':')`: the empty string is 0, an optional minus sign
followed by digits is that integer, anything else is NaN (`none`).
(Decimal points, exponents and surrounding whitespace do not occur in
schedule times and are not modelled.) -/
def jsNumberChars : List Char → Option Int
  | [] => some 0
  | '-' :: rest =>
    match rest with
    | [] => none
    | _ => (digitsValue rest).map (fun n => -(n : Int))
  | cs => (digitsValue cs).map Int.ofNat

/-- JavaScript `split(':')` on the character list of a schedule time. -/
def splitColon : List Char → List (List Char)
  | [] => [[]]
  | c :: rest =>
    let tailParts := splitColon rest
    if c == ':' then
      [] :: tailParts
    else
      match tailParts with
      | h :: t => (c :: h) :: t
      | [] => [[c]]

/-- Millisecond offset from midnight of the scheduled start:
`const [startHour, startMinute] = schedule.startTime.split(':').map(Number)`
followed by `setHours(startHour, startMinute, 0, 0)`.  `none` models the
NaN case (missing or non-numeric component), in which every subsequent
`Date` comparison is false. -/
def scheduleStartOffsetMs (startTime : String) : Option Int :=
  match splitColon startTime.data with
  | h :: m :: _ =>
    match jsNumberChars h, jsNumberChars m with
    | some hv, some mv => some ((hv * 3600 + mv * 60) * 1000)
    | _, _ => none
  | _ => none

/-- Status computation of `markAttendanceWithQR`: the FIRST schedule
entry whose `day` equals today's weekday name ('present' when none
matches); 'late' iff `now > classStartTime + 15 * 60000` strictly. -/
def markStatus (classData : ClassInfo) (now : Int) : String :=
  match classData.schedule.find? (fun schedule => schedule.day == weekdayName now) with
  | some schedule =>
    match scheduleStartOffsetMs schedule.startTime with
    | some offset =>
      if startOfDay now + offset + 15 * 60000 < now then "late" else "present"
    | none => "present"
  | none => "present"

/-- Model of `QRService.markAttendanceWithQR`, in source order: validation
(`validateQRCode`), presence of `classId`/`sessionId` in the validation
result, enrollment (`classData?.enrolledStudents.includes`), per-day
ledger duplicate, per-session `attendanceMarked` membership, status
computation, then `createAttendanceRecord`.  The
`qrSession.attendanceMarked.push(studentId)` at the end mutates the
deserialized copy only (see header), so the session store is unchanged
on every path. -/
def markAttendanceWithQR (st : AppState) (now : Int) (tok : Json)
    (studentId : String) : MarkResult × AppState :=
  let validation := validateQRCode st now tok
  if validation.success then
    match validation.classId, validation.sessionId with
    | some classId, some sessionId =>
      if classId == "" || sessionId == "" then
        (⟨false, "Missing class or session information", none⟩, st)
      else
        match getClassById st classId with
        | none => (⟨false, "You are not enrolled in this class", none⟩, st)
        | some classData =>
          if !classData.enrolledStudents.contains studentId then
            (⟨false, "You are not enrolled in this class", none⟩, st)
          else if ((getAttendanceByDate st now).find?
              (fun record => record.classId == classId && record.studentId == studentId)).isSome then
            (⟨false, "Attendance already marked for this class today", none⟩, st)
          else if (match getActiveQRSession st now classId with
              | some qrSession => qrSession.attendanceMarked.contains studentId
              | none => false) then
            (⟨false, "You have already marked attendance for this session", none⟩, st)
          else
            let status := markStatus classData now
            let created := createAttendanceRecord st now classId studentId now status now sessionId
            (⟨true, "Attendance marked as " ++ status, some created.1.id⟩, created.2)
    | _, _ => (⟨false, "Missing class or session information", none⟩, st)
  else
    (⟨false, validation.error.getD "QR code validation failed", none⟩, st)

/-- Model of `QRService.deactivateQRSession`: fetches the active session (a fresh
deserialized copy), sets `isActive = false` on that copy and returns
`true`; the store is never written back (source comment: "Note: In a
real app, you'd update this in the database"), so the state is unchanged.
Returns `false` when the class has no active session. -/
def deactivateQRSession (st : AppState) (now : Int) (classId : String) :
    Bool × AppState :=
  match getActiveQRSession st now classId with
  | some _ => (true, st)
  | none => (false, st)

/-- Duration normalization of the QR-generation API route:
`body.durationMinutes || 30` — a missing field (`undefined`) and the
falsy value 0 become 30; every other number, negative included, passes
through unchanged. -/
def routeDurationMinutes (durationMinutes : Option Int) : Int :=
  match durationMinutes with
  | none => 30
  | some v => if v == 0 then 30 else v

/-- The check `classData?.enrolledStudents.includes(studentId)` as a predicate on
the store. -/
def enrolledIn (st : AppState) (classId studentId : String) : Bool :=
  match getClassById st classId with
  | some classData => classData.enrolledStudents.contains studentId
  | none => false

/-- There is a ledger entry for this (class, member, civil day) triple. -/
def hasEntryFor (st : AppState) (classId studentId : String) (day : Int) : Prop :=
  ∃ r ∈ st.records, r.classId = classId ∧ r.studentId = studentId ∧ dateOf r.date = day

/-- Number of ledger entries for a (class, member, civil day) triple. -/
def countFor (records : List AttendanceRecord) (classId studentId : String)
    (day : Int) : Nat :=
  (records.filter
    (fun r => r.classId == classId && r.studentId == studentId && dateOf r.date == day)).length

/-- Daily-uniqueness invariant of the ledger. -/
def atMostOnePerDay (st : AppState) : Prop :=
  ∀ classId studentId day, countFor st.records classId studentId day ≤ 1

/-- Sequential execution of a list of evaluate calls
(time, token, member). -/
def runMarks (st : AppState) (calls : List (Int × Json × String)) : AppState :=
  calls.foldl (fun s c => (markAttendanceWithQR s c.1 c.2.1 c.2.2).2) st

/-- Number of Accepted outcomes along a sequential list of evaluate
calls. -/
def acceptedCount (st : AppState) : List (Int × Json × String) → Nat
  | [] => 0
  | c :: rest =>
    let r := markAttendanceWithQR st c.1 c.2.1 c.2.2
    (if r.1.success then 1 else 0) + acceptedCount r.2 rest

/-- A record with the audit field `qrCodeUsed` blanked, for comparing
ledgers up to the token's session id. -/
def stripQrCodeUsed (r : AttendanceRecord) : AttendanceRecord :=
  { r with qrCodeUsed := "" }

/-- Concrete fixture: a class meeting Mondays at 09:00 with one enrolled
member `m1`. -/
def mathClass : ClassInfo :=
  ⟨"c1", "Advanced Mathematics", [⟨"Monday", "09:00", "10:30"⟩], ["m1"]⟩

/-- Concrete fixture: an active stored session for `c1` expiring far in
the future. -/
def liveSession : QRCodeSession := ⟨"777", "c1", 0, 7200000000, true, []⟩

/-- Concrete fixture: store with one class, empty ledger, one live
session. -/
def baseState : AppState := ⟨[mathClass], [], [liveSession]⟩

/-- Concrete fixture: a well-formed token for `c1`. -/
def tokOne : Json := encodeQRCodeData ⟨"c1", "uuid-1", 1000, 7200000000⟩

/-- Note that 1970-01-05 was a Monday: midnight of civil day 4. -/
def mondayBase : Int := 4 * 86400000

/-- Concrete fixture: store whose ledger already has one entry for
(`c1`, `m1`) on civil day 4. -/
def dupState : AppState :=
  ⟨[mathClass],
   [⟨"345660000", "c1", "m1", 345660000, "present", 345660000, "uuid-1"⟩],
   [liveSession]⟩

/-- Concrete fixture: two active, unexpired sessions for `c1`; the
earlier-issued one is stored first. -/
def twoSessionState : AppState :=
  ⟨[mathClass], [],
   [⟨"100", "c1", 0, 7200000000, true, []⟩,
    ⟨"200", "c1", 1000, 7200000000, true, []⟩]⟩

/-- Concrete fixture: the class exists but no session is stored. -/
def noSessionState : AppState := ⟨[mathClass], [], []⟩

/-- Variant of `markAttendanceWithQR` with `validateQRCode` inlined, as a function
of the decoded payload; used to show the outcome depends on the token
only through its decoded fields. -/
def markAux (st : AppState) (now : Int) (o : Option QRCodeData) (m : String) :
    MarkResult × AppState :=
  match o with
  | none => (⟨false, "Invalid QR code format", none⟩, st)
  | some d =>
    if now > d.expiresAt then (⟨false, "QR code has expired", none⟩, st)
    else
      match getClassById st d.classId with
      | none => (⟨false, "Class not found", none⟩, st)
      | some _ =>
        match getActiveQRSession st now d.classId with
        | none => (⟨false, "QR code session is not active", none⟩, st)
        | some _ =>
          if d.classId == "" || d.sessionId == "" then
            (⟨false, "Missing class or session information", none⟩, st)
          else
            match getClassById st d.classId with
            | none => (⟨false, "You are not enrolled in this class", none⟩, st)
            | some classData =>
              if !classData.enrolledStudents.contains m then
                (⟨false, "You are not enrolled in this class", none⟩, st)
              else if ((getAttendanceByDate st now).find?
                  (fun r => r.classId == d.classId && r.studentId == m)).isSome then
                (⟨false, "Attendance already marked for this class today", none⟩, st)
              else if (match getActiveQRSession st now d.classId with
                  | some qrSession => qrSession.attendanceMarked.contains m
                  | none => false) then
                (⟨false, "You have already marked attendance for this session", none⟩, st)
              else
                (⟨true, "Attendance marked as " ++ markStatus classData now,
                   some (toString now)⟩,
                 { st with records := st.records ++
                     [⟨toString now, d.classId, m, now, markStatus classData now, now,
                       d.sessionId⟩] })

/-- A successfully decoded payload has nonempty ids and nonzero
timestamps (the JS-truthiness check of `validateQRCode`). -/
theorem decodeToken_fields {j : Json} {d : QRCodeData} (h : decodeToken j = some d) :
    d.classId ≠ "" ∧ d.sessionId ≠ "" ∧ d.timestamp ≠ 0 ∧ d.expiresAt ≠ 0 := by
  unfold decodeToken at h
  split at h
  · split at h
    · exact absurd h (by simp)
    · rename_i classId sessionId timestamp expiresAt _ hcond
      obtain rfl := Option.some.inj h
      simp only [Bool.or_eq_true, beq_iff_eq, not_or] at hcond
      exact ⟨hcond.1.1.1, hcond.1.1.2, hcond.1.2, hcond.2⟩
  · exact absurd h (by simp)

/-- Successful validation characterized: the payload decodes, is
unexpired, its class exists and has an active session, and the result
carries the payload's ids and the class name. -/
theorem validate_success_elim (st : AppState) (now : Int) (tok : Json)
    (h : (validateQRCode st now tok).success = true) :
    ∃ d classData,
      decodeToken tok = some d ∧ ¬ d.expiresAt < now ∧
      getClassById st d.classId = some classData ∧
      (∃ s, getActiveQRSession st now d.classId = some s) ∧
      validateQRCode st now tok =
        ⟨true, some d.classId, some d.sessionId, some classData.name, none⟩ := by
  unfold validateQRCode at h
  rcases hd : decodeToken tok with _ | d <;> simp only [hd] at h
  · simp at h
  · by_cases hexp : now > d.expiresAt
    · simp only [if_pos hexp] at h; simp at h
    · simp only [if_neg hexp] at h
      rcases hc : getClassById st d.classId with _ | classData <;> simp only [hc] at h
      · simp at h
      · rcases hs : getActiveQRSession st now d.classId with _ | s <;> simp only [hs] at h
        · simp at h
        · refine ⟨d, classData, rfl, hexp, hc, ⟨s, hs⟩, ?_⟩
          unfold validateQRCode
          simp only [hd, if_neg hexp, hc, hs]

/-- Central case analysis of `markAttendanceWithQR`: every call either
rejects and leaves the store untouched, or accepts, in which case the
validation succeeded, the member is enrolled, no same-day ledger entry
existed, and the only store change is appending one attendance record
built from the token's class id, the member, `now` and the computed
status. -/
theorem mark_cases (st : AppState) (now : Int) (tok : Json) (m : String) :
    ((markAttendanceWithQR st now tok m).1.success = false ∧
     (markAttendanceWithQR st now tok m).2 = st) ∨
    (∃ d classData,
      decodeToken tok = some d ∧
      validateQRCode st now tok =
        ⟨true, some d.classId, some d.sessionId, some classData.name, none⟩ ∧
      getClassById st d.classId = some classData ∧
      classData.enrolledStudents.contains m = true ∧
      (getAttendanceByDate st now).find?
        (fun r => r.classId == d.classId && r.studentId == m) = none ∧
      markAttendanceWithQR st now tok m =
        (⟨true, "Attendance marked as " ++ markStatus classData now, some (toString now)⟩,
         { st with records := st.records ++
             [⟨toString now, d.classId, m, now, markStatus classData now, now, d.sessionId⟩] })) := by
  by_cases hsucc : (validateQRCode st now tok).success = true
  · obtain ⟨d, classData, hd, hexp, hc, ⟨sess, hs⟩, hveq⟩ := validate_success_elim st now tok hsucc
    obtain ⟨hcne, hsne, -, -⟩ := decodeToken_fields hd
    have hcne' : (d.classId == "") = false := beq_eq_false_iff_ne.mpr hcne
    have hsne' : (d.sessionId == "") = false := beq_eq_false_iff_ne.mpr hsne
    cases hm : classData.enrolledStudents.contains m with
    | false =>
      have hm' : ¬ m ∈ classData.enrolledStudents := by simpa using hm
      have hmark : markAttendanceWithQR st now tok m =
          (⟨false, "You are not enrolled in this class", none⟩, st) := by
        unfold markAttendanceWithQR
        simp [hveq, hcne', hsne', hc, hm']
      exact Or.inl ⟨by rw [hmark], by rw [hmark]⟩
    | true =>
      have hm' : m ∈ classData.enrolledStudents := by simpa using hm
      cases hdup : (getAttendanceByDate st now).find?
          (fun r => r.classId == d.classId && r.studentId == m) with
      | some r =>
        have hdup' : ∃ x ∈ getAttendanceByDate st now, x.classId = d.classId ∧ x.studentId = m := by
          refine ⟨r, List.mem_of_find?_eq_some hdup, ?_⟩
          simpa using List.find?_some hdup
        have hmark : markAttendanceWithQR st now tok m =
            (⟨false, "Attendance already marked for this class today", none⟩, st) := by
          unfold markAttendanceWithQR
          simp [hveq, hcne', hsne', hc, hm', hdup']
        exact Or.inl ⟨by rw [hmark], by rw [hmark]⟩
      | none =>
        have hdup' : ¬ ∃ x ∈ getAttendanceByDate st now, x.classId = d.classId ∧ x.studentId = m := by
          rintro ⟨x, hx, h1, h2⟩
          have hfx := List.find?_eq_none.mp hdup x hx
          simp [h1, h2] at hfx
        cases hsm : sess.attendanceMarked.contains m with
        | true =>
          have hsm' : m ∈ sess.attendanceMarked := by simpa using hsm
          have hmark : markAttendanceWithQR st now tok m =
              (⟨false, "You have already marked attendance for this session", none⟩, st) := by
            unfold markAttendanceWithQR
            simp [hveq, hcne', hsne', hc, hm', hdup', hs, hsm']
          exact Or.inl ⟨by rw [hmark], by rw [hmark]⟩
        | false =>
          have hsm' : ¬ m ∈ sess.attendanceMarked := by simpa using hsm
          have hmark : markAttendanceWithQR st now tok m =
              (⟨true, "Attendance marked as " ++ markStatus classData now, some (toString now)⟩,
               { st with records := st.records ++
                   [⟨toString now, d.classId, m, now, markStatus classData now, now, d.sessionId⟩] }) := by
            unfold markAttendanceWithQR
            simp [hveq, hcne', hsne', hc, hm', hdup', hs, hsm', createAttendanceRecord]
          exact Or.inr ⟨d, classData, hd, hveq, hc, hm, hdup, hmark⟩
  · have hmark : markAttendanceWithQR st now tok m =
        (⟨false, (validateQRCode st now tok).error.getD "QR code validation failed", none⟩, st) := by
      unfold markAttendanceWithQR
      simp only [Bool.not_eq_true] at hsucc
      simp [hsucc]
    exact Or.inl ⟨by rw [hmark], by rw [hmark]⟩

/-- A rejecting evaluate call leaves the store untouched. -/
theorem mark_reject_state (st : AppState) (now : Int) (tok : Json) (m : String)
    (h : (markAttendanceWithQR st now tok m).1.success = false) :
    (markAttendanceWithQR st now tok m).2 = st := by
  rcases mark_cases st now tok m with ⟨_, hst⟩ | ⟨d, cD, _, _, _, _, _, heq⟩
  · exact hst
  · rw [heq] at h; exact absurd h (by simp)

/-- No evaluate call ever changes the class list or the session store. -/
theorem mark_classes_sessions (st : AppState) (now : Int) (tok : Json) (m : String) :
    (markAttendanceWithQR st now tok m).2.classes = st.classes ∧
    (markAttendanceWithQR st now tok m).2.sessions = st.sessions := by
  rcases mark_cases st now tok m with ⟨_, hst⟩ | ⟨d, cD, _, _, _, _, _, heq⟩
  · rw [hst]; exact ⟨rfl, rfl⟩
  · rw [heq]; exact ⟨rfl, rfl⟩

/-- The ledger only grows: every stored record survives an evaluate
call. -/
theorem mark_records_mono (st : AppState) (now : Int) (tok : Json) (m : String)
    {r : AttendanceRecord} (hr : r ∈ st.records) :
    r ∈ (markAttendanceWithQR st now tok m).2.records := by
  rcases mark_cases st now tok m with ⟨_, hst⟩ | ⟨d, cD, _, _, _, _, _, heq⟩
  · rw [hst]; exact hr
  · rw [heq]; exact List.mem_append_left _ hr

/-- An evaluate call by a member who already has a ledger entry today
for the token's class is never accepted. -/
theorem mark_no_accept_of_entry (st : AppState) (now : Int) (tok : Json) (m : String)
    (h : ∀ d, decodeToken tok = some d → hasEntryFor st d.classId m (dateOf now)) :
    (markAttendanceWithQR st now tok m).1.success = false := by
  rcases mark_cases st now tok m with ⟨hf, _⟩ | ⟨d, cD, hd, _, _, _, hdup, heq⟩
  · exact hf
  · exfalso
    obtain ⟨r, hr, h1, h2, h3⟩ := h d hd
    have hrf : r ∈ getAttendanceByDate st now := by
      unfold getAttendanceByDate getAttendanceRecords
      exact List.mem_filter.mpr ⟨hr, by simp [h3]⟩
    have := List.find?_eq_none.mp hdup r hrf
    simp [h1, h2] at this

/-- When validation succeeds, the member is enrolled, and a same-day
ledger entry for the token's class already exists, the call rejects with
exactly the duplicate-day message and leaves the store untouched. -/
theorem mark_dup_reject (st : AppState) (now : Int) (tok : Json) (m : String)
    (d : QRCodeData) (classData : ClassInfo)
    (hval : (validateQRCode st now tok).success = true)
    (hd : decodeToken tok = some d)
    (hc : getClassById st d.classId = some classData)
    (hmem : classData.enrolledStudents.contains m = true)
    (hentry : hasEntryFor st d.classId m (dateOf now)) :
    markAttendanceWithQR st now tok m =
      (⟨false, "Attendance already marked for this class today", none⟩, st) := by
  obtain ⟨d', classData', hd', hexp, hc', ⟨sess, hs⟩, hveq⟩ := validate_success_elim st now tok hval
  have hdd : d' = d := Option.some.inj (hd'.symm.trans hd)
  subst hdd
  have hcc : classData' = classData := Option.some.inj (hc'.symm.trans hc)
  subst hcc
  obtain ⟨hcne, hsne, -, -⟩ := decodeToken_fields hd'
  have hcne' : (d'.classId == "") = false := beq_eq_false_iff_ne.mpr hcne
  have hsne' : (d'.sessionId == "") = false := beq_eq_false_iff_ne.mpr hsne
  have hm' : m ∈ classData'.enrolledStudents := by simpa using hmem
  have hdup' : ∃ x ∈ getAttendanceByDate st now, x.classId = d'.classId ∧ x.studentId = m := by
    obtain ⟨r, hr, h1, h2, h3⟩ := hentry
    refine ⟨r, ?_, h1, h2⟩
    unfold getAttendanceByDate getAttendanceRecords
    exact List.mem_filter.mpr ⟨hr, by simp [h3]⟩
  unfold markAttendanceWithQR
  simp [hveq, hcne', hsne', hc, hm', hdup']

/-- One evaluate call preserves the daily-uniqueness invariant. -/
theorem mark_preserves_atMostOne (st : AppState) (now : Int) (tok : Json) (m : String)
    (h : atMostOnePerDay st) : atMostOnePerDay (markAttendanceWithQR st now tok m).2 := by
  rcases mark_cases st now tok m with ⟨_, hst⟩ | ⟨d, cD, hd, hv, hc, hmem, hdup, heq⟩
  · rw [hst]; exact h
  · rw [heq]
    intro c mm day
    show countFor (st.records ++
      [⟨toString now, d.classId, m, now, markStatus cD now, now, d.sessionId⟩]) c mm day ≤ 1
    unfold countFor
    rw [List.filter_append, List.length_append]
    cases hpred : (fun r : AttendanceRecord =>
        r.classId == c && r.studentId == mm && dateOf r.date == day)
        ⟨toString now, d.classId, m, now, markStatus cD now, now, d.sessionId⟩ with
    | false =>
      have hnil : ([⟨toString now, d.classId, m, now, markStatus cD now, now, d.sessionId⟩] :
          List AttendanceRecord).filter
          (fun r => r.classId == c && r.studentId == mm && dateOf r.date == day) = [] := by
        simp only [List.filter, hpred]
      rw [hnil]
      simpa using h c mm day
    | true =>
      simp only [Bool.and_eq_true, beq_iff_eq] at hpred
      obtain ⟨⟨hpc, hps⟩, hpd⟩ := hpred
      have hzero : (st.records.filter
          (fun r => r.classId == c && r.studentId == mm && dateOf r.date == day)).length = 0 := by
        rw [List.length_eq_zero, List.filter_eq_nil_iff]
        intro r hr hpr
        simp only [Bool.and_eq_true, beq_iff_eq] at hpr
        obtain ⟨⟨h1, h2⟩, h3⟩ := hpr
        have hrf : r ∈ getAttendanceByDate st now := by
          unfold getAttendanceByDate getAttendanceRecords
          refine List.mem_filter.mpr ⟨hr, ?_⟩
          simp [h3, hpd]
        have hfind := List.find?_eq_none.mp hdup r hrf
        simp [h1, hpc, h2, hps] at hfind
      rw [hzero, List.filter_singleton]
      simp [hpc, hps, hpd]

/-- Any sequence of sequential evaluate calls preserves the
daily-uniqueness invariant. -/
theorem runMarks_preserves_atMostOne (calls : List (Int × Json × String))
    (st : AppState) (h : atMostOnePerDay st) : atMostOnePerDay (runMarks st calls) := by
  induction calls generalizing st with
  | nil => exact h
  | cons c rest ih =>
    simp only [runMarks, List.foldl_cons]
    exact ih _ (mark_preserves_atMostOne _ _ _ _ h)

/-- Once a member has a ledger entry for a class on a given day, no
further same-day evaluate call with a token of that class is accepted. -/
theorem acceptedCount_zero (calls : List (Int × Json × String)) (st : AppState)
    (c0 M : String) (day0 : Int) (r0 : AttendanceRecord)
    (hr0 : r0 ∈ st.records) (hr0c : r0.classId = c0) (hr0s : r0.studentId = M)
    (hr0d : dateOf r0.date = day0)
    (hcalls : ∀ x ∈ calls, dateOf x.1 = day0 ∧
      (∀ d, decodeToken x.2.1 = some d → d.classId = c0) ∧ x.2.2 = M) :
    acceptedCount st calls = 0 := by
  induction calls generalizing st with
  | nil => rfl
  | cons c rest ih =>
    obtain ⟨hd1, hd2, hd3⟩ := hcalls c (by simp)
    have hfail : (markAttendanceWithQR st c.1 c.2.1 c.2.2).1.success = false := by
      apply mark_no_accept_of_entry
      intro d hd
      exact ⟨r0, hr0, hr0c.trans (hd2 d hd).symm, hr0s.trans hd3.symm,
        hr0d.trans hd1.symm⟩
    have hstate := mark_reject_state st c.1 c.2.1 c.2.2 hfail
    simp only [acceptedCount, hfail, hstate, if_false]
    simpa using ih st hr0 (fun x hx => hcalls x (List.mem_cons_of_mem _ hx))

/-- C2, counterexample to the claim as stated: an accepted evaluate call
does NOT add the member to the stored session's redemption set — the
session store after the accept is identical to the one before, with
every stored redemption set still empty. -/
theorem c2_counterexample :
    (markAttendanceWithQR baseState 345660000 tokOne "m1").1.success = true ∧
    (markAttendanceWithQR baseState 345660000 tokOne "m1").2.sessions =
      baseState.sessions ∧
    ∀ s ∈ (markAttendanceWithQR baseState 345660000 tokOne "m1").2.sessions,
      s.attendanceMarked = ([] : List String) := by
  refine ⟨by decide, by decide, by decide⟩

/-- C2 (amended): an evaluate call that rejects leaves the store exactly
as it was; the class list and session store are unchanged by every call
(the redemption-set addition is applied to a non-persisted copy only);
on the accept path the only change is appending one attendance entry for
the member dated `now`. -/
theorem c2_reject_never_mutates (st : AppState) (now : Int) (tok : Json) (m : String) :
    ((markAttendanceWithQR st now tok m).1.success = false →
      (markAttendanceWithQR st now tok m).2 = st) ∧
    (markAttendanceWithQR st now tok m).2.classes = st.classes ∧
    (markAttendanceWithQR st now tok m).2.sessions = st.sessions ∧
    ((markAttendanceWithQR st now tok m).1.success = true →
      ∃ rec : AttendanceRecord, rec.studentId = m ∧ rec.date = now ∧
        (markAttendanceWithQR st now tok m).2.records = st.records ++ [rec]) := by
  refine ⟨mark_reject_state st now tok m, (mark_classes_sessions st now tok m).1,
    (mark_classes_sessions st now tok m).2, ?_⟩
  intro hs
  rcases mark_cases st now tok m with ⟨hf, _⟩ | ⟨d, cD, _, _, _, _, _, heq⟩
  · rw [hf] at hs; exact absurd hs (by simp)
  · exact ⟨_, rfl, rfl, by rw [heq]⟩

/-- C2, witness: a rejecting call (expired token) leaves the concrete
store untouched. -/
theorem c2_witness :
    (markAttendanceWithQR baseState 7200000001 tokOne "m1").1.success = false ∧
    (markAttendanceWithQR baseState 7200000001 tokOne "m1").2 = baseState :=
  ⟨by decide,
   (c2_reject_never_mutates baseState 7200000001 tokOne "m1").1 (by decide)⟩

/-- C3: daily uniqueness.  Starting from a ledger with at most one entry
per (class, member, day), any sequence of sequential evaluate calls
keeps at most one entry per triple; and a call by a member who already
has an entry today for the token's class — with the preceding checks
passing — rejects with the duplicate-day message and appends nothing. -/
theorem c3_daily_uniqueness (st : AppState) (h : atMostOnePerDay st) :
    (∀ calls, atMostOnePerDay (runMarks st calls)) ∧
    (∀ now tok m d classData,
      decodeToken tok = some d →
      (validateQRCode st now tok).success = true →
      getClassById st d.classId = some classData →
      classData.enrolledStudents.contains m = true →
      hasEntryFor st d.classId m (dateOf now) →
      markAttendanceWithQR st now tok m =
        (⟨false, "Attendance already marked for this class today", none⟩, st)) := by
  refine ⟨fun calls => runMarks_preserves_atMostOne calls st h, ?_⟩
  intro now tok m d classData hd hval hc hmem hentry
  exact mark_dup_reject st now tok m d classData hval hd hc hmem hentry

/-- C3, witness: on a concrete store with an existing same-day entry,
the next same-day call rejects with the duplicate-day message. -/
theorem c3_witness :
    atMostOnePerDay dupState ∧
    markAttendanceWithQR dupState 345720000 tokOne "m1" =
      (⟨false, "Attendance already marked for this class today", none⟩, dupState) := by
  have hinv : atMostOnePerDay dupState := by
    intro c m day
    unfold countFor
    exact le_trans (List.length_filter_le _ _) (by decide)
  refine ⟨hinv, ?_⟩
  exact (c3_daily_uniqueness dupState hinv).2 345720000 tokOne "m1"
    ⟨"c1", "uuid-1", 1000, 7200000000⟩ mathClass (by decide) (by decide) (by decide)
    (by decide)
    ⟨⟨"345660000", "c1", "m1", 345660000, "present", 345660000, "uuid-1"⟩,
      by decide, by decide, by decide, by decide⟩

/-- C1, counterexample to the claim as stated: one minute after an
Accepted redemption, a second attempt with the same token IS rejected,
but with the duplicate-day message ('Attendance already marked for this
class today'), not `AlreadyRedeemedThisSession` ('You have already
marked attendance for this session') — the per-day ledger check runs
before the per-session check, and the redemption set is never
persisted. -/
theorem c1_counterexample :
    (markAttendanceWithQR baseState 345660000 tokOne "m1").1.success = true ∧
    (markAttendanceWithQR (markAttendanceWithQR baseState 345660000 tokOne "m1").2
        345720000 tokOne "m1").1 =
      ⟨false, "Attendance already marked for this class today", none⟩ ∧
    "Attendance already marked for this class today" ≠
      "You have already marked attendance for this session" := by
  refine ⟨by decide, by decide, by decide⟩

/-- C1 (amended): after an Accepted redemption, every later same-day
attempt with the same token by the same member is rejected — with the
duplicate-day message whenever the pre-ledger checks still pass — and
any same-day sequence of further attempts contains zero Accepted
outcomes, so the whole sequence yields exactly one Accepted. -/
theorem c1_exactly_one_accepted (st : AppState) (tok : Json) (M : String) (n1 : Int)
    (h1 : (markAttendanceWithQR st n1 tok M).1.success = true) :
    (∀ n2, dateOf n2 = dateOf n1 →
      (markAttendanceWithQR (markAttendanceWithQR st n1 tok M).2 n2 tok M).1.success
        = false) ∧
    (∀ n2, dateOf n2 = dateOf n1 →
      (validateQRCode (markAttendanceWithQR st n1 tok M).2 n2 tok).success = true →
      markAttendanceWithQR (markAttendanceWithQR st n1 tok M).2 n2 tok M =
        (⟨false, "Attendance already marked for this class today", none⟩,
         (markAttendanceWithQR st n1 tok M).2)) ∧
    (∀ calls : List (Int × Json × String),
      (∀ x ∈ calls, dateOf x.1 = dateOf n1 ∧ x.2.1 = tok ∧ x.2.2 = M) →
      acceptedCount (markAttendanceWithQR st n1 tok M).2 calls = 0) := by
  rcases mark_cases st n1 tok M with ⟨hf, _⟩ | ⟨d, cD, hd, hv, hc, hmem, hdup, heq⟩
  · rw [hf] at h1; exact absurd h1 (by simp)
  · have hr0mem :
        (⟨toString n1, d.classId, M, n1, markStatus cD n1, n1, d.sessionId⟩ :
          AttendanceRecord) ∈ (markAttendanceWithQR st n1 tok M).2.records := by
      rw [heq]; exact List.mem_append_right _ (by simp)
    refine ⟨?_, ?_, ?_⟩
    · intro n2 hday
      apply mark_no_accept_of_entry
      intro d2 hd2
      have hdd : d2 = d := Option.some.inj (hd2.symm.trans hd)
      subst hdd
      exact ⟨_, hr0mem, rfl, rfl, hday.symm⟩
    · intro n2 hday hval2
      have hcls := (mark_classes_sessions st n1 tok M).1
      have hc2 : getClassById (markAttendanceWithQR st n1 tok M).2 d.classId = some cD := by
        unfold getClassById
        rw [hcls]
        exact hc
      exact mark_dup_reject _ n2 tok M d cD hval2 hd hc2 hmem
        ⟨_, hr0mem, rfl, rfl, hday.symm⟩
    · intro calls hcalls
      refine acceptedCount_zero calls _ d.classId M (dateOf n1) _ hr0mem rfl rfl rfl ?_
      intro x hx
      refine ⟨(hcalls x hx).1, ?_, (hcalls x hx).2.2⟩
      intro dd hdd
      rw [(hcalls x hx).2.1] at hdd
      have : dd = d := Option.some.inj (hdd.symm.trans hd)
      rw [this]

/-- C1, witness: a concrete Accepted redemption followed by same-day
reattempts — the second attempt fails and a further two-attempt
same-day sequence contains zero Accepted outcomes. -/
theorem c1_witness :
    (markAttendanceWithQR baseState 345660000 tokOne "m1").1.success = true ∧
    (markAttendanceWithQR (markAttendanceWithQR baseState 345660000 tokOne "m1").2
        345720000 tokOne "m1").1.success = false ∧
    acceptedCount (markAttendanceWithQR baseState 345660000 tokOne "m1").2
      [(345720000, tokOne, "m1"), (345780000, tokOne, "m1")] = 0 := by
  have h1 : (markAttendanceWithQR baseState 345660000 tokOne "m1").1.success = true := by
    decide
  have hmain := c1_exactly_one_accepted baseState tokOne "m1" 345660000 h1
  refine ⟨h1, hmain.1 345720000 (by decide), ?_⟩
  refine hmain.2.2 [(345720000, tokOne, "m1"), (345780000, tokOne, "m1")] ?_
  intro x hx
  rcases List.mem_cons.mp hx with rfl | hx2
  · exact ⟨by decide, rfl, rfl⟩
  · rcases List.mem_cons.mp hx2 with rfl | hx3
    · exact ⟨by decide, rfl, rfl⟩
    · exact absurd hx3 (by simp)

/-- Lemma: `find?` returns the first list element satisfying the predicate. -/
theorem find?_first_of_prefix {α : Type} (p : α → Bool) (pre : List α) (a : α)
    (post : List α) (hpre : ∀ x ∈ pre, p x = false) (ha : p a = true) :
    (pre ++ a :: post).find? p = some a := by
  induction pre with
  | nil => rw [List.nil_append, List.find?_cons, ha]
  | cons y ys ih =>
    have hy : p y = false := hpre y (by simp)
    rw [List.cons_append, List.find?_cons, hy]
    exact ih (fun x hx => hpre x (by simp [hx]))

/-- C4, counterexample to the claim as stated: with two qualifying
sessions, `getActiveQRSession` returns the FIRST stored one
(issued-at 0), even though a qualifying session with the strictly later
issued-at 1000 exists. -/
theorem c4_counterexample :
    getActiveQRSession twoSessionState 2000 "c1" =
      some ⟨"100", "c1", 0, 7200000000, true, []⟩ ∧
    (⟨"200", "c1", 1000, 7200000000, true, []⟩ : QRCodeSession) ∈
      twoSessionState.sessions ∧
    (⟨"200", "c1", 1000, 7200000000, true, []⟩ : QRCodeSession).isActive = true ∧
    (2000 : Int) < 7200000000 ∧ (0 : Int) < 1000 := by
  refine ⟨by decide, by decide, by decide, by decide, by decide⟩

/-- C4 (amended): `getActiveQRSession` returns only a stored session of
the class that is active and unexpired, returns none exactly when no
such session exists, and when several qualify it returns the first in
store (insertion) order — not the one with the latest issued-at. -/
theorem c4_findUsable (st : AppState) (now : Int) (classId : String) :
    (∀ s, getActiveQRSession st now classId = some s →
      s ∈ st.sessions ∧ s.classId = classId ∧ s.isActive = true ∧ now < s.expiresAt) ∧
    (getActiveQRSession st now classId = none ↔
      ∀ s ∈ st.sessions, ¬(s.classId = classId ∧ s.isActive = true ∧ now < s.expiresAt)) ∧
    (∀ pre s post, st.sessions = pre ++ s :: post →
      s.classId = classId → s.isActive = true → now < s.expiresAt →
      (∀ x ∈ pre, ¬(x.classId = classId ∧ x.isActive = true ∧ now < x.expiresAt)) →
      getActiveQRSession st now classId = some s) := by
  refine ⟨?_, ?_, ?_⟩
  · intro s hfind
    refine ⟨List.mem_of_find?_eq_some hfind, ?_⟩
    have hp := List.find?_some hfind
    simp only [Bool.and_eq_true, beq_iff_eq, decide_eq_true_eq] at hp
    exact ⟨hp.1.1, hp.1.2, hp.2⟩
  · unfold getActiveQRSession
    rw [List.find?_eq_none]
    constructor
    · intro h s hs hprop
      have hp := h s hs
      simp only [Bool.and_eq_true, beq_iff_eq, decide_eq_true_eq] at hp
      exact hp ⟨⟨hprop.1, hprop.2.1⟩, hprop.2.2⟩
    · intro h s hs
      simp only [Bool.and_eq_true, beq_iff_eq, decide_eq_true_eq]
      rintro ⟨⟨ha, hb⟩, hc⟩
      exact h s hs ⟨ha, hb, hc⟩
  · intro pre s post hsplit hcl hact hexp hpre
    unfold getActiveQRSession
    rw [hsplit]
    apply find?_first_of_prefix
    · intro x hx
      cases hpx : (x.classId == classId && x.isActive && decide (now < x.expiresAt)) with
      | false => rfl
      | true =>
        exfalso
        simp only [Bool.and_eq_true, beq_iff_eq, decide_eq_true_eq] at hpx
        exact hpre x hx ⟨hpx.1.1, hpx.1.2, hpx.2⟩
    · simp [hcl, hact, hexp]

/-- C4, witness: the first-in-store-order characterization applied to
the concrete two-session store. -/
theorem c4_witness :
    getActiveQRSession twoSessionState 2000 "c1" =
      some ⟨"100", "c1", 0, 7200000000, true, []⟩ :=
  (c4_findUsable twoSessionState 2000 "c1").2.2 []
    ⟨"100", "c1", 0, 7200000000, true, []⟩
    [⟨"200", "c1", 1000, 7200000000, true, []⟩]
    (by decide) (by decide) (by decide) (by decide) (by simp)

/-- C5, the code at the failing input: `deactivateQRSession` on a class
with one active, unexpired session reports success (`true`) but leaves
the store unchanged — its `isActive = false` assignment hits a
non-persisted copy — so a subsequent `getActiveQRSession`, at a time
still before the session's expiry, STILL returns the session instead of
none. -/
theorem c5_deactivate_not_persisted :
    deactivateQRSession baseState 1000 "c1" = (true, baseState) ∧
    getActiveQRSession (deactivateQRSession baseState 1000 "c1").2 2000 "c1" =
      some liveSession ∧
    (2000 : Int) < liveSession.expiresAt ∧ liveSession.isActive = true ∧
    deactivateQRSession (⟨[mathClass], [], []⟩ : AppState) 1000 "c1" =
      (false, ⟨[mathClass], [], []⟩) := by
  refine ⟨by decide, by decide, by decide, by decide, by decide⟩

/-- C6, counterexample to the claim as stated: for a well-formed,
unexpired token naming the existing class `c1`, presented by the
unenrolled member `m2` while the class has no active session, the
rejection is 'QR code session is not active' (the step-6 condition),
not NotEnrolled — the active-session check inside `validateQRCode` runs
before the enrollment check. -/
theorem c6_counterexample :
    (decodeToken tokOne).isSome = true ∧
    getClassById noSessionState "c1" = some mathClass ∧
    mathClass.enrolledStudents.contains "m2" = false ∧
    (markAttendanceWithQR noSessionState 345660000 tokOne "m2").1 =
      ⟨false, "QR code session is not active", none⟩ ∧
    "QR code session is not active" ≠ "You are not enrolled in this class" := by
  refine ⟨by decide, by decide, by decide, by decide, by decide⟩

/-- C6 (amended): the active-session check precedes the enrollment
check.  With a decodable unexpired token for an existing class and no
active session, evaluate rejects with the session-not-active message
regardless of enrollment; the NotEnrolled rejection is produced for an
unenrolled member exactly when validation (including the active-session
check) has passed. -/
theorem c6_session_check_before_enrollment (st : AppState) (now : Int) (tok : Json)
    (m : String) (d : QRCodeData) (classData : ClassInfo) :
    (decodeToken tok = some d → ¬ d.expiresAt < now →
      getClassById st d.classId = some classData →
      getActiveQRSession st now d.classId = none →
      markAttendanceWithQR st now tok m =
        (⟨false, "QR code session is not active", none⟩, st)) ∧
    ((validateQRCode st now tok).success = true →
      decodeToken tok = some d →
      getClassById st d.classId = some classData →
      classData.enrolledStudents.contains m = false →
      markAttendanceWithQR st now tok m =
        (⟨false, "You are not enrolled in this class", none⟩, st)) := by
  constructor
  · intro hd hexp hc hs
    have hval : validateQRCode st now tok =
        ⟨false, none, none, none, some "QR code session is not active"⟩ := by
      unfold validateQRCode
      simp only [hd, if_neg hexp, hc, hs]
    unfold markAttendanceWithQR
    simp [hval]
  · intro hval hd hc hmem
    obtain ⟨d', classData', hd', hexp, hc', ⟨sess, hs⟩, hveq⟩ :=
      validate_success_elim st now tok hval
    have hdd : d' = d := Option.some.inj (hd'.symm.trans hd)
    subst hdd
    have hcc : classData' = classData := Option.some.inj (hc'.symm.trans hc)
    subst hcc
    obtain ⟨hcne, hsne, -, -⟩ := decodeToken_fields hd'
    have hcne' : (d'.classId == "") = false := beq_eq_false_iff_ne.mpr hcne
    have hsne' : (d'.sessionId == "") = false := beq_eq_false_iff_ne.mpr hsne
    have hm' : ¬ m ∈ classData'.enrolledStudents := by simpa using hmem
    unfold markAttendanceWithQR
    simp [hveq, hcne', hsne', hc', hm']

/-- C6, witness: both branches exercised on concrete stores — no active
session gives the session message even for an unenrolled member; with an
active session the same unenrolled member gets NotEnrolled. -/
theorem c6_witness :
    markAttendanceWithQR noSessionState 345660000 tokOne "m2" =
      (⟨false, "QR code session is not active", none⟩, noSessionState) ∧
    markAttendanceWithQR baseState 345660000 tokOne "m2" =
      (⟨false, "You are not enrolled in this class", none⟩, baseState) :=
  ⟨(c6_session_check_before_enrollment noSessionState 345660000 tokOne "m2"
      ⟨"c1", "uuid-1", 1000, 7200000000⟩ mathClass).1
      (by decide) (by decide) (by decide) (by decide),
   (c6_session_check_before_enrollment baseState 345660000 tokOne "m2"
      ⟨"c1", "uuid-1", 1000, 7200000000⟩ mathClass).2
      (by decide) (by decide) (by decide) (by decide)⟩

/-- The computed status is always 'late' or 'present'. -/
theorem markStatus_cases (classData : ClassInfo) (now : Int) :
    markStatus classData now = "late" ∨ markStatus classData now = "present" := by
  unfold markStatus
  split
  · split
    · split
      · left; rfl
      · right; rfl
    · right; rfl
  · right; rfl

/-- Lateness characterization of `markStatus` for schedules with at most
one entry per weekday and parseable start times on the matching day. -/
theorem markStatus_late_iff (classData : ClassInfo) (now : Int)
    (huniq : ∀ e1 ∈ classData.schedule, ∀ e2 ∈ classData.schedule,
      e1.day = weekdayName now → e2.day = weekdayName now → e1 = e2)
    (hparse : ∀ e ∈ classData.schedule, e.day = weekdayName now →
      (scheduleStartOffsetMs e.startTime).isSome = true) :
    (markStatus classData now = "late" ↔
      ∃ e ∈ classData.schedule, e.day = weekdayName now ∧
        ∃ off, scheduleStartOffsetMs e.startTime = some off ∧
          startOfDay now + off + 15 * 60000 < now) := by
  unfold markStatus
  rcases hfind : classData.schedule.find? (fun s => s.day == weekdayName now) with _ | e0
  · simp only [hfind]
    constructor
    · intro h; exact absurd h (by decide)
    · rintro ⟨e, he, hday, -⟩
      have hn := List.find?_eq_none.mp hfind e he
      simp [hday] at hn
  · simp only [hfind]
    have he0mem := List.mem_of_find?_eq_some hfind
    have he0day : e0.day = weekdayName now := by
      have := List.find?_some hfind; simpa using this
    rcases hoff : scheduleStartOffsetMs e0.startTime with _ | off
    · have hps := hparse e0 he0mem he0day
      rw [hoff] at hps
      exact absurd hps (by simp)
    · simp only [hoff]
      by_cases hlt : startOfDay now + off + 15 * 60000 < now
      · rw [if_pos hlt]
        exact ⟨fun _ => ⟨e0, he0mem, he0day, off, hoff, hlt⟩, fun _ => rfl⟩
      · rw [if_neg hlt]
        constructor
        · intro h; exact absurd h (by decide)
        · rintro ⟨e, he, hday, off', hoff', hlt'⟩
          have hee : e = e0 := huniq e he e0 he0mem hday he0day
          subst hee
          obtain rfl : off' = off := by
            rw [hoff'] at hoff
            exact Option.some.inj hoff
          exact absurd hlt' hlt

/-- C7: for an accepted redemption, the appended entry's status is
'late' iff some schedule entry of the class matches the redemption
day's weekday and the redemption time is more than 15 minutes
(strictly) after that entry's start instant for that day; otherwise the
status is 'present' — under the spec's assumption that at most one
schedule entry matches a weekday and that matching start times parse. -/
theorem c7_late_iff (st : AppState) (now : Int) (tok : Json) (m : String)
    (d : QRCodeData) (classData : ClassInfo)
    (hd : decodeToken tok = some d)
    (hc : getClassById st d.classId = some classData)
    (hacc : (markAttendanceWithQR st now tok m).1.success = true)
    (huniq : ∀ e1 ∈ classData.schedule, ∀ e2 ∈ classData.schedule,
      e1.day = weekdayName now → e2.day = weekdayName now → e1 = e2)
    (hparse : ∀ e ∈ classData.schedule, e.day = weekdayName now →
      (scheduleStartOffsetMs e.startTime).isSome = true) :
    ∃ rec : AttendanceRecord,
      (markAttendanceWithQR st now tok m).2.records = st.records ++ [rec] ∧
      (rec.status = "late" ∨ rec.status = "present") ∧
      (rec.status = "late" ↔
        ∃ e ∈ classData.schedule, e.day = weekdayName now ∧
          ∃ off, scheduleStartOffsetMs e.startTime = some off ∧
            startOfDay now + off + 15 * 60000 < now) := by
  rcases mark_cases st now tok m with ⟨hf, -⟩ | ⟨d', cD', hd', hv, hc', hmem, hdup, heq⟩
  · rw [hf] at hacc; exact absurd hacc (by simp)
  · have hdd : d' = d := Option.some.inj (hd'.symm.trans hd)
    subst hdd
    have hcc : cD' = classData := Option.some.inj (hc'.symm.trans hc)
    subst hcc
    refine ⟨⟨toString now, d'.classId, m, now, markStatus cD' now, now, d'.sessionId⟩,
      by rw [heq], markStatus_cases cD' now, markStatus_late_iff cD' now huniq hparse⟩

/-- C7, witness: Monday class starting 09:00 — an accepted redemption at
09:15:01 is recorded 'late', one at 09:14:59 is recorded 'present'
(378901000 and 378899000 are those instants on Monday 1970-01-05). -/
theorem c7_witness :
    (∃ rec : AttendanceRecord,
      (markAttendanceWithQR baseState 378901000 tokOne "m1").2.records =
        baseState.records ++ [rec] ∧ rec.status = "late") ∧
    (∃ rec : AttendanceRecord,
      (markAttendanceWithQR baseState 378899000 tokOne "m1").2.records =
        baseState.records ++ [rec] ∧ rec.status = "present") := by
  constructor
  · obtain ⟨rec, hrec, hcases, hiff⟩ :=
      c7_late_iff baseState 378901000 tokOne "m1" ⟨"c1", "uuid-1", 1000, 7200000000⟩
        mathClass (by decide) (by decide) (by decide) (by decide) (by decide)
    refine ⟨rec, hrec, ?_⟩
    exact hiff.mpr ⟨⟨"Monday", "09:00", "10:30"⟩, by decide, by decide, 32400000,
      by decide, by decide⟩
  · obtain ⟨rec, hrec, hcases, hiff⟩ :=
      c7_late_iff baseState 378899000 tokOne "m1" ⟨"c1", "uuid-1", 1000, 7200000000⟩
        mathClass (by decide) (by decide) (by decide) (by decide) (by decide)
    refine ⟨rec, hrec, ?_⟩
    rcases hcases with hl | hp
    · exfalso
      obtain ⟨e, he, hday, off, hoff, hlt⟩ := hiff.mp hl
      have he' : e = ⟨"Monday", "09:00", "10:30"⟩ := by
        simpa [mathClass] using he
      subst he'
      have hoffv : scheduleStartOffsetMs "09:00" = some 32400000 := by decide
      rw [hoffv] at hoff
      obtain rfl := Option.some.inj hoff
      exact absurd hlt (by decide)
    · exact hp

/-- C8, counterexample to the claim as stated: payloads consisting of the
four fields but with a zero timestamp or an empty class id fail the JS
truthiness check, so decoding the encoding does not recover them — it
fails as malformed. -/
theorem c8_counterexample :
    decodeToken (encodeQRCodeData ⟨"c1", "s1", 0, 1000⟩) = none ∧
    decodeToken (encodeQRCodeData ⟨"", "s1", 5, 1000⟩) = none := by
  exact ⟨by decide, by decide⟩

/-- C8 (amended): for every payload whose ids are nonempty and whose
timestamps are nonzero, decoding the encoding recovers exactly the
payload, and the encoded token passes the source's format check; the
format check rejects a token as malformed whenever one of the four
required properties is missing or JS-falsy on the parsed value — this
truthiness test being the only format check the source performs. -/
theorem c8_round_trip (d : QRCodeData) (h1 : d.classId ≠ "") (h2 : d.sessionId ≠ "")
    (h3 : d.timestamp ≠ 0) (h4 : d.expiresAt ≠ 0) :
    decodeToken (encodeQRCodeData d) = some d ∧
    tokenFormatRejected (encodeQRCodeData d) = false ∧
    (∀ j : Json,
      ∀ k ∈ (["classId", "sessionId", "timestamp", "expiresAt"] : List String),
      jsTruthy (getField j k) = false → tokenFormatRejected j = true) := by
  refine ⟨?_, ?_, ?_⟩
  · simp [decodeToken, encodeQRCodeData, getField, lookupField, h1, h2, h3, h4]
  · simp [tokenFormatRejected, encodeQRCodeData, getField, lookupField, jsTruthy,
      h1, h2, h3, h4]
  · intro j k hk hfalse
    simp only [List.mem_cons, List.not_mem_nil, or_false] at hk
    rcases hk with rfl | rfl | rfl | rfl <;>
      simp [tokenFormatRejected, hfalse]

/-- C8, witness: the round trip at a concrete truthy payload, and the
format check rejecting a concrete token with a zero (falsy) timestamp. -/
theorem c8_witness :
    decodeToken (encodeQRCodeData ⟨"c1", "uuid-1", 1000, 7200000000⟩) =
      some ⟨"c1", "uuid-1", 1000, 7200000000⟩ ∧
    tokenFormatRejected (encodeQRCodeData ⟨"c1", "s1", 0, 1000⟩) = true := by
  have h := c8_round_trip ⟨"c1", "uuid-1", 1000, 7200000000⟩ (by decide) (by decide)
    (by decide) (by decide)
  exact ⟨h.1, h.2.2 (encodeQRCodeData ⟨"c1", "s1", 0, 1000⟩) "timestamp"
    (by decide) (by decide)⟩

/-- The evaluate call reads the token only through `decodeToken`. -/
theorem mark_eq_markAux (st : AppState) (now : Int) (tok : Json) (m : String) :
    markAttendanceWithQR st now tok m = markAux st now (decodeToken tok) m := by
  rcases hd : decodeToken tok with _ | d
  · have hval : validateQRCode st now tok =
        ⟨false, none, none, none, some "Invalid QR code format"⟩ := by
      unfold validateQRCode; simp only [hd]
    unfold markAttendanceWithQR markAux
    simp [hval]
  · by_cases hexp : now > d.expiresAt
    · have hval : validateQRCode st now tok =
          ⟨false, none, none, none, some "QR code has expired"⟩ := by
        unfold validateQRCode; simp only [hd, if_pos hexp]
      unfold markAttendanceWithQR markAux
      simp [hval, hexp]
    · rcases hc : getClassById st d.classId with _ | classData
      · have hval : validateQRCode st now tok =
            ⟨false, none, none, none, some "Class not found"⟩ := by
          unfold validateQRCode; simp only [hd, if_neg hexp, hc]
        unfold markAttendanceWithQR markAux
        simp [hval, hexp, hc]
      · rcases hs : getActiveQRSession st now d.classId with _ | sess
        · have hval : validateQRCode st now tok =
              ⟨false, none, none, none, some "QR code session is not active"⟩ := by
            unfold validateQRCode; simp only [hd, if_neg hexp, hc, hs]
          unfold markAttendanceWithQR markAux
          simp [hval, hexp, hc, hs]
        · have hval : validateQRCode st now tok =
              ⟨true, some d.classId, some d.sessionId, some classData.name, none⟩ := by
            unfold validateQRCode; simp only [hd, if_neg hexp, hc, hs]
          unfold markAttendanceWithQR markAux
          simp [hval, hexp, hc, hs, createAttendanceRecord]

/-- Decoding an encoded payload: the identity, guarded by the JS
truthiness check on the four fields. -/
theorem decode_encode (p : QRCodeData) :
    decodeToken (encodeQRCodeData p) =
      if p.classId == "" || p.sessionId == "" || p.timestamp == 0 || p.expiresAt == 0
      then none else some p := by
  rfl

/-- The full observable outcome of `markAux` — result, classes,
sessions, and ledger up to the audit field — does not depend on the
(nonempty) session id carried by the token. -/
theorem markAux_sessionId (st : AppState) (now : Int) (p : QRCodeData)
    (s1 s2 m : String) (hs1 : s1 ≠ "") (hs2 : s2 ≠ "") :
    (fun r : MarkResult × AppState =>
      (r.1, r.2.classes, r.2.sessions, r.2.records.map stripQrCodeUsed))
      (markAux st now (some { p with sessionId := s1 }) m) =
    (fun r : MarkResult × AppState =>
      (r.1, r.2.classes, r.2.sessions, r.2.records.map stripQrCodeUsed))
      (markAux st now (some { p with sessionId := s2 }) m) := by
  have hs1' : (s1 == "") = false := beq_eq_false_iff_ne.mpr hs1
  have hs2' : (s2 == "") = false := beq_eq_false_iff_ne.mpr hs2
  unfold markAux
  dsimp only
  simp only [hs1', hs2', Bool.or_false]
  by_cases hexp : now > p.expiresAt
  · simp only [if_pos hexp]
  · simp only [if_neg hexp]
    rcases hc : getClassById st p.classId with _ | classData
    · rfl
    · rcases hs : getActiveQRSession st now p.classId with _ | sess
      · rfl
      · by_cases hg : (p.classId == "") = true
        · simp only [if_pos hg]
        · simp only [if_neg hg]
          by_cases hmem : classData.enrolledStudents.contains m = true
          · simp only [hmem, Bool.not_true, if_neg (by simp : ¬ (false = true))]
            by_cases hdup : ((getAttendanceByDate st now).find?
                (fun r => r.classId == p.classId && r.studentId == m)).isSome = true
            · simp only [if_pos hdup]
            · simp only [if_neg hdup]
              by_cases hsm : sess.attendanceMarked.contains m = true
              · simp only [if_pos hsm]
              · simp only [if_neg hsm]
                simp [stripQrCodeUsed]
          · have hmem' : ¬ m ∈ classData.enrolledStudents := by
              simpa using hmem
            simp [hmem']

/-- C9: the token's session id is never compared against stored session
state.  (a) Issuance stores exactly the same session state whatever
`uuidv4` value ends up as the token's session id — the stored session is
keyed by `Date.now().toString()`, not by the token's session id.
(b) Redemption resolves the session by class id alone: two tokens
differing only in their (nonempty) session id produce the same result
and the same store, up to the `qrCodeUsed` audit field of the appended
entry. -/
theorem c9_sessionId_never_checked (st : AppState) (now : Int)
    (uuid1 uuid2 classId : String) (dur : Int) (p : QRCodeData) (s1 s2 m : String)
    (hs1 : s1 ≠ "") (hs2 : s2 ≠ "") :
    (generateClassQR st now uuid1 classId dur).2 =
      (generateClassQR st now uuid2 classId dur).2 ∧
    ((markAttendanceWithQR st now (encodeQRCodeData { p with sessionId := s1 }) m).1 =
      (markAttendanceWithQR st now (encodeQRCodeData { p with sessionId := s2 }) m).1 ∧
     (markAttendanceWithQR st now (encodeQRCodeData { p with sessionId := s1 }) m).2.classes =
      (markAttendanceWithQR st now (encodeQRCodeData { p with sessionId := s2 }) m).2.classes ∧
     (markAttendanceWithQR st now (encodeQRCodeData { p with sessionId := s1 }) m).2.sessions =
      (markAttendanceWithQR st now (encodeQRCodeData { p with sessionId := s2 }) m).2.sessions ∧
     (markAttendanceWithQR st now (encodeQRCodeData { p with sessionId := s1 }) m).2.records.map
        stripQrCodeUsed =
      (markAttendanceWithQR st now (encodeQRCodeData { p with sessionId := s2 }) m).2.records.map
        stripQrCodeUsed) := by
  have hs1' : (s1 == "") = false := beq_eq_false_iff_ne.mpr hs1
  have hs2' : (s2 == "") = false := beq_eq_false_iff_ne.mpr hs2
  constructor
  · unfold generateClassQR
    rcases hc : getClassById st classId with _ | c <;> rfl
  · have hd1 := decode_encode { p with sessionId := s1 }
    have hd2 := decode_encode { p with sessionId := s2 }
    rw [hs1'] at hd1
    rw [hs2'] at hd2
    simp only [mark_eq_markAux, hd1, hd2]
    by_cases hbad :
        (p.classId == "" || false || p.timestamp == 0 || p.expiresAt == 0) = true
    · simp only [if_pos hbad]
      exact ⟨trivial, trivial, trivial, trivial⟩
    · simp only [if_neg hbad]
      have h := markAux_sessionId st now p s1 s2 m hs1 hs2
      dsimp only at h
      exact ⟨congrArg (fun t => t.1) h, congrArg (fun t => t.2.1) h,
        congrArg (fun t => t.2.2.1) h, congrArg (fun t => t.2.2.2) h⟩

/-- C9, witness: two concrete tokens for the same class differing only
in session id produce the identical result against the concrete store. -/
theorem c9_witness :
    (markAttendanceWithQR baseState 345660000
      (encodeQRCodeData ⟨"c1", "sA", 1000, 7200000000⟩) "m1").1 =
    (markAttendanceWithQR baseState 345660000
      (encodeQRCodeData ⟨"c1", "sB", 1000, 7200000000⟩) "m1").1 := by
  have h := c9_sessionId_never_checked baseState 345660000 "u1" "u2" "c1" 30
    ⟨"c1", "x", 1000, 7200000000⟩ "sA" "sB" "m1"
    (by decide) (by decide)
  exact h.2.1

/-- C10: issuance performs no duration validation.  For an existing
class, `generateClassQR` succeeds for EVERY duration — zero and negative
included — storing a session with
`expiresAt = generatedAt + durationMinutes * 60000`; a negative duration
therefore yields `expiresAt < generatedAt`, an already-expired session.
At the API route, a missing or zero `durationMinutes` is replaced by 30
(`body.durationMinutes || 30`) but a negative value passes through
unchanged. -/
theorem c10_no_duration_validation (st : AppState) (now : Int)
    (uuid classId : String) (dur : Int) (c : ClassInfo)
    (hc : getClassById st classId = some c) :
    ((generateClassQR st now uuid classId dur).1.success = true ∧
     (generateClassQR st now uuid classId dur).1.expiresAt =
       some (now + dur * 60000) ∧
     (generateClassQR st now uuid classId dur).2.sessions =
       st.sessions ++ [⟨toString now, classId, now, now + dur * 60000, true, []⟩] ∧
     (dur < 0 → now + dur * 60000 < now)) ∧
    routeDurationMinutes none = 30 ∧ routeDurationMinutes (some 0) = 30 ∧
    ∀ v : Int, v ≠ 0 → routeDurationMinutes (some v) = v := by
  have hgen : generateClassQR st now uuid classId dur =
      (⟨true, some ⟨classId, uuid, now, now + dur * 60000⟩, some uuid,
         some (now + dur * 60000), none⟩,
       { st with sessions :=
           st.sessions ++ [⟨toString now, classId, now, now + dur * 60000, true, []⟩] }) := by
    unfold generateClassQR createQRSession
    simp only [hc]
  refine ⟨⟨by rw [hgen], by rw [hgen], by rw [hgen], ?_⟩, rfl, rfl, ?_⟩
  · intro hdur
    have hneg : dur * 60000 < 0 :=
      mul_neg_of_neg_of_pos hdur (by norm_num)
    linarith
  · intro v hv
    unfold routeDurationMinutes
    simp [hv]

/-- C10, witness: issuing with duration −5 for the existing class
succeeds and stores an expiry 300000 ms before issuance. -/
theorem c10_witness :
    (generateClassQR baseState 1000 "u1" "c1" (-5)).1.success = true ∧
    (generateClassQR baseState 1000 "u1" "c1" (-5)).1.expiresAt = some (-299000) ∧
    (1000 : Int) + (-5) * 60000 < 1000 ∧
    routeDurationMinutes (some (-5)) = -5 := by
  have h := c10_no_duration_validation baseState 1000 "u1" "c1" (-5) mathClass (by decide)
  exact ⟨h.1.1, by rw [h.1.2.1]; norm_num, h.1.2.2.2 (by norm_num),
    h.2.2.2 (-5) (by norm_num)⟩
